import Mathlib

/-!
# Verification of the animated-chart frame pipeline of `Data_Analysis`

Shallow embedding of the frame-sampling and frame-construction logic of
`ChartGenerator._create_animated_chart` (src/chart_generator.py, lines
873-1095) and of its caller `create_single_axis_chart` (lines 193-274),
together with spec-modelled components (Quality Profile Resolver, Ordered
Aggregator) whose implementation is not part of the sources.

Conventions:
- `len(data)` (the number of rows of the input dataframe) is `total : Nat`.
- the `animation_frames` argument is `cap : Option Int` (`none` = Python
  `None`).
- frame indices are `Int` (Python ints; `len(data) - 1` can be `-1`).
- a Python exception is modelled by `Except.error` carrying a `PyErr`.
-/

/-- The Python exceptions that the embedded code paths can raise. -/
inductive PyErr where
  /-- `ZeroDivisionError` (integer division or `/` by zero). -/
  | zeroDivisionError
  /-- `ValueError` (e.g. `range()` arg 3 must not be zero). -/
  | valueError
  /-- `IndexError` (e.g. `list[-1]` on an empty list). -/
  | indexError
deriving DecidableEq, Repr

/-- `range(0, stop, step)` as a Python list, for a non-zero `step`
(a zero `step` raises `ValueError`, which the caller checks).
For `step > 0` the elements are `0, step, 2*step, ...` strictly below
`stop`; a non-positive-direction range is empty. -/
def pyRange0 (stop step : Int) : List Int :=
  if 0 < step ∧ 0 < stop then
    (List.range ((stop - 1).toNat / step.toNat + 1)).map (fun (i : Nat) => (i : Int) * step)
  else []

/-- The common tail of the sampler (src/chart_generator.py lines 904-910):

    if not frame_indices:
        frame_indices = [0]
    if frame_indices[-1] != len(data) - 1:
        frame_indices.append(len(data) - 1)

`frame_indices[-1]` is modelled by `List.getLastD _ 0`; it is only reached
on a non-empty list here, where the two agree with Python. -/
def finalizeFrameIndices (total : Nat) (fi : List Int) : List Int :=
  let n : Int := total
  let fi := if fi = [] then [0] else fi
  if fi.getLastD 0 ≠ n - 1 then fi ++ [n - 1] else fi

/-- The Frame Sampler: the `frame_indices` computation of
`_create_animated_chart` (src/chart_generator.py lines 889-910).

    if animation_frames is None:
        frame_indices = list(range(len(data)))
    else:
        max_frames = animation_frames
        if len(data) > max_frames:
            step = len(data) // max_frames
            frame_indices = list(range(0, len(data), step))
            if frame_indices[-1] != len(data) - 1:
                frame_indices.append(len(data) - 1)
        else:
            frame_indices = list(range(len(data)))
    -- followed by the `finalizeFrameIndices` tail.

Python `//` is floor division, `Int.fdiv`.  Error paths preserved from
Python: `max_frames == 0` raises `ZeroDivisionError` at `len(data) //
max_frames`; a zero `step` (possible for `len(data) == 0 > max_frames`)
raises `ValueError` inside `range`; a negative `step` with `len(data) > 0`
makes `range` empty so `frame_indices[-1]` raises `IndexError`. -/
def sampleFrameIndices (total : Nat) (cap : Option Int) : Except PyErr (List Int) :=
  let n : Int := total
  match cap with
  | none => .ok (finalizeFrameIndices total (pyRange0 n 1))
  | some c =>
    if n > c then
      if c = 0 then .error .zeroDivisionError
      else
        let step := Int.fdiv n c
        if step = 0 then .error .valueError
        else
          let fi := pyRange0 n step
          if fi = [] then .error .indexError
          else
            let fi := if fi.getLastD 0 ≠ n - 1 then fi ++ [n - 1] else fi
            .ok (finalizeFrameIndices total fi)
    else .ok (finalizeFrameIndices total (pyRange0 n 1))

deriving instance DecidableEq for Except

example : sampleFrameIndices 5 none = .ok [0, 1, 2, 3, 4] := by decide
example : sampleFrameIndices 0 none = .ok [0, -1] := by decide
example : sampleFrameIndices 1 (some 100) = .ok [0] := by decide
example : sampleFrameIndices 11 (some 3) = .ok [0, 3, 6, 9, 10] := by decide
example : sampleFrameIndices 19 (some 10) =
    .ok [0, 1, 2, 3, 4, 5, 6, 7, 8, 9, 10, 11, 12, 13, 14, 15, 16, 17, 18] := by decide
example : sampleFrameIndices 5 (some 0) = .error .zeroDivisionError := by decide
example : sampleFrameIndices 0 (some (-1)) = .error .valueError := by decide
example : sampleFrameIndices 5 (some (-2)) = .error .indexError := by decide

/-- The animation figure data that `_create_animated_chart` assembles and
that the claims observe: the sampled `frame_indices`, the number of data
rows each frame's `frame_data` prefix holds, and the slider step labels. -/
structure AnimFigure where
  frameIndices : List Int
  framePrefixLens : List Nat
  stepLabels : List Nat
deriving DecidableEq, Repr

/-- Row count of `frame_data` for the frame at loop position `frameIdx`
with sampled index `i` (src/chart_generator.py lines 913-918):

    if frame_idx == 0 and i == 0 and len(data) > 1:
        frame_data = data.iloc[:2]
    else:
        frame_data = data.iloc[:i+1]

Sampled indices satisfy `i + 1 ≤ total`, so `iloc[:i+1]` holds `i + 1`
rows (`0` rows when `i = -1`, whence the `toNat`). -/
def framePrefixLen (total frameIdx : Nat) (i : Int) : Nat :=
  if frameIdx = 0 ∧ i = 0 ∧ 1 < total then 2 else (i + 1).toNat

/-- `_create_animated_chart` (src/chart_generator.py lines 873-1095),
reduced to the observations the claims are about.  After sampling, the
per-frame loop computes each frame's data prefix and the slider label

    progress_percent = int((frame_idx / (len(frame_indices) - 1)) * 100)

(line 1081).  When `len(frame_indices) == 1` the first loop iteration
divides by zero, so the call raises `ZeroDivisionError` and no figure is
returned.  Label values are modelled with exact integer arithmetic
(`frameIdx * 100 / (L - 1)`); no claim depends on them, only on the
division by `L - 1`. -/
def createAnimatedChart (total : Nat) (cap : Option Int) : Except PyErr AnimFigure :=
  match sampleFrameIndices total cap with
  | .error e => .error e
  | .ok fi =>
    if fi.length = 1 then .error .zeroDivisionError
    else .ok
      { frameIndices := fi
        framePrefixLens := fi.enum.map (fun p => framePrefixLen total p.1 p.2)
        stepLabels := fi.enum.map (fun p => p.1 * 100 / (fi.length - 1)) }

/-- The `chart_type` dispatch of `create_single_axis_chart`
(src/chart_generator.py lines 272-274): `'animated'` delegates to
`_create_animated_chart`; every other chart type builds a static figure,
modelled opaquely as `none`. -/
def createSingleAxisChart (chartType : String) (total : Nat) (cap : Option Int) :
    Except PyErr (Option AnimFigure) :=
  if chartType = "animated" then (createAnimatedChart total cap).map some
  else .ok none

/-- The `animation_frames` values the UI can hand to the chart generator
(src/ui_components.py lines 183-194): the selectbox options
`[50, 100, 200, 500, 1000]`, or `None` for the "全部数据" choice. -/
def animationFramesOptions : List (Option Int) :=
  [some 50, some 100, some 200, some 500, some 1000, none]

/-- A raw dataframe cell as seen by `pd.to_numeric(_, errors='coerce')`:
either a numeric value or something non-numeric (which coercion turns
into `NaN`, modelled as `none`). -/
inductive RawCell where
  | num (v : Int)
  | nonNumeric
deriving DecidableEq, Repr

/-- `pd.to_numeric(_, errors='coerce')` on one cell. -/
def toNumericCoerce : RawCell → Option Int
  | .num v => some v
  | .nonNumeric => none

/-- Forward fill with the last valid observation carried in `last`. -/
def ffillAux : Option Int → List (Option Int) → List (Option Int)
  | _, [] => []
  | last, x :: xs =>
    let cur := match x with
      | some v => some v
      | none => last
    cur :: ffillAux cur xs

/-- Pandas `Series.ffill()`: each missing value is replaced by the most
recent earlier non-missing value; leading missing values stay missing. -/
def ffill (l : List (Option Int)) : List (Option Int) := ffillAux none l

/-- Pandas `Series.fillna(0)`: every remaining missing value becomes `0`. -/
def fillna0 (l : List (Option Int)) : List (Option Int) :=
  l.map (fun o => some (o.getD 0))

/-- The y-series of one trace of one frame (src/chart_generator.py lines
926-929): `frame_data` is the first `prefixLen` rows of the column, then

    y_values = pd.to_numeric(frame_data[col], errors='coerce')
    y_values = y_values.ffill().fillna(0)                         -/
def frameYValues (rawCol : List RawCell) (prefixLen : Nat) : List (Option Int) :=
  fillna0 (ffill (((rawCol.take prefixLen)).map toNumericCoerce))

example : frameYValues [.nonNumeric, .num 5, .nonNumeric, .num 7] 3 =
    [some 0, some 5, some 5] := by decide

/-- Modelled from the spec: the color-encoding strategy of a
`QualityProfile` (spec §3); the implementation of the export pipeline's
Quality Profile Resolver is not among the sources. -/
inductive ColorEncoding where
  | reducedPalette (colors : Nat)
  | fullColor
deriving DecidableEq, Repr

/-- Modelled from the spec: a resolved `QualityProfile` (spec §3).
`rasterScale` is kept as a rational.  `tierThreshold` is the per-tier
stride denominator of §4.1 for the stride-based tiers (`none` for
"fastest", which uses a bucket lookup instead); the spec pins only the
"standard" threshold to 100 (its §8 example `200/100 = 2`), the 30/60
breakpoints are assigned to the remaining stride-based tiers. -/
structure QualityProfile where
  targetWidth : Nat
  targetHeight : Nat
  rasterScale : ℚ
  maxFrameBudget : Option Nat
  tierThreshold : Option Nat
  perFrameDurationMs : Nat
  colorEncoding : ColorEncoding
deriving DecidableEq, Repr

/-- Modelled from the spec: the error taxonomy of the export pipeline
(spec §7); the pipeline implementation is not among the sources. -/
inductive PipelineError where
  | configurationError
  | renderFailure
  | cancelled
  | encodingError
deriving DecidableEq, Repr

/-- Modelled from the spec: the Quality Profile Resolver (spec §4.1 and
the four built-in tiers of §3); its implementation is not among the
sources.  An unrecognized tier name fails with `ConfigurationError`. -/
def resolveQualityProfile (tier : String) : Except PipelineError QualityProfile :=
  if tier = "fastest" then
    .ok ⟨240, 160, 3/10, some 10, none, 500, .reducedPalette 16⟩
  else if tier = "fast-preview" then
    .ok ⟨320, 240, 2/5, none, some 30, 300, .fullColor⟩
  else if tier = "standard" then
    .ok ⟨480, 360, 3/5, none, some 100, 250, .fullColor⟩
  else if tier = "high" then
    .ok ⟨800, 600, 1, none, some 60, 200, .fullColor⟩
  else .error .configurationError

/-- Modelled from the spec: the pipeline front end — resolve the tier,
then sample frame indices (spec §2 data flow `Quality Profile Resolver →
Frame Sampler → ...`); the pipeline implementation is not among the
sources.  Resolution failure is returned before any sampling happens. -/
def runPipelineSampling (tier : String) (total : Nat) :
    Except PipelineError (List Int) :=
  match resolveQualityProfile tier with
  | .error e => .error e
  | .ok p =>
    match sampleFrameIndices total ((p.tierThreshold.or p.maxFrameBudget).map Int.ofNat) with
    | .error _ => .error .renderFailure
    | .ok fi => .ok fi

/-- Modelled from the spec: one Ordered Aggregator collection step (spec
§4.4) — a completed worker result `(slotIndex, result)` is written into
its pre-assigned slot of the `RenderSlot` state, regardless of arrival
order; the concurrent pipeline implementation is not among the sources. -/
def slotWrite (state : Nat → Option α) (ev : Nat × Option α) : Nat → Option α :=
  fun k => if k = ev.1 then ev.2 else state k

/-- Modelled from the spec: the Ordered Aggregator's collection loop
(spec §4.4) — worker results are folded into the slot state in arrival
order, starting from all-empty slots. -/
def runAggregator (events : List (Nat × Option α)) : Nat → Option α :=
  events.foldl slotWrite (fun _ => none)

/-- Modelled from the spec: the Aggregator's final output (spec §4.4) —
`RenderSlot` read in slot order, filtered to the non-empty entries. -/
def aggregatorOutput (n : Nat) (events : List (Nat × Option α)) : List α :=
  (List.range n).filterMap (runAggregator events)

example : aggregatorOutput 3 [(2, some "c"), (0, some "a"), (1, (none : Option String))] =
    ["a", "c"] := by decide

/-! ## Helper lemmas about the sampler -/

theorem pyRange0_head? (stop step : Int) (hst : 0 < step) (hsp : 0 < stop) :
    (pyRange0 stop step).head? = some 0 := by
  unfold pyRange0
  rw [if_pos ⟨hst, hsp⟩, List.range_succ_eq_map]
  simp

theorem pyRange0_ne_nil (stop step : Int) (hst : 0 < step) (hsp : 0 < stop) :
    pyRange0 stop step ≠ [] := by
  intro h
  have := pyRange0_head? stop step hst hsp
  rw [h] at this
  simp at this

theorem pyRange0_length (stop step : Int) (hst : 0 < step) (hsp : 0 < stop) :
    (pyRange0 stop step).length = (stop - 1).toNat / step.toNat + 1 := by
  unfold pyRange0
  rw [if_pos ⟨hst, hsp⟩, List.length_map, List.length_range]

theorem pyRange0_natCast_one (t : Nat) :
    pyRange0 (t : Int) 1 = (List.range t).map (fun (i : Nat) => (i : Int)) := by
  unfold pyRange0
  rcases Nat.eq_zero_or_pos t with h | h
  · subst h; simp
  · rw [if_pos ⟨one_pos, by exact_mod_cast h⟩]
    have h2 : ((t : Int) - 1).toNat / (1 : Int).toNat + 1 = t := by
      rw [Int.toNat_one, Nat.div_one]; omega
    rw [h2]
    simp

theorem map_range_natCast_getLast? (t : Nat) (h : 1 ≤ t) :
    ((List.range t).map (fun (i : Nat) => (i : Int))).getLast? = some ((t : Int) - 1) := by
  obtain ⟨m, rfl⟩ : ∃ m, t = m + 1 := ⟨t - 1, by omega⟩
  rw [List.range_succ, List.map_append, List.getLast?_append]
  simp

theorem map_range_natCast_getLastD (t : Nat) (h : 1 ≤ t) :
    ((List.range t).map (fun (i : Nat) => (i : Int))).getLastD 0 = (t : Int) - 1 := by
  rw [List.getLastD_eq_getLast?, map_range_natCast_getLast? t h]
  rfl

theorem finalizeFrameIndices_getLast? (total : Nat) (fi : List Int) :
    (finalizeFrameIndices total fi).getLast? = some ((total : Int) - 1) := by
  simp only [finalizeFrameIndices]
  set fi' := if fi = [] then [0] else fi with hfi'
  have hne : fi' ≠ [] := by
    rw [hfi']
    split
    · simp
    · assumption
  split
  · exact List.getLast?_concat _
  · next hl =>
    push_neg at hl
    rw [List.getLast?_eq_getLast fi' hne]
    rw [List.getLastD_eq_getLast?, List.getLast?_eq_getLast fi' hne] at hl
    exact congrArg some hl

theorem finalizeFrameIndices_of_getLastD (total : Nat) (fi : List Int)
    (hne : fi ≠ []) (h : fi.getLastD 0 = (total : Int) - 1) :
    finalizeFrameIndices total fi = fi := by
  simp only [finalizeFrameIndices]
  rw [if_neg hne, if_neg (by rw [h]; simp)]

theorem finalizeFrameIndices_head? (total : Nat) (fi : List Int) (hne : fi ≠ []) :
    (finalizeFrameIndices total fi).head? = fi.head? := by
  obtain ⟨a, l, rfl⟩ := List.exists_cons_of_ne_nil hne
  simp only [finalizeFrameIndices]
  rw [if_neg hne]
  split
  · rfl
  · rfl

theorem head?_append_left {α : Type} (l l' : List α) (h : l ≠ []) :
    (l ++ l').head? = l.head? := by
  obtain ⟨a, t, rfl⟩ := List.exists_cons_of_ne_nil h
  rfl

/-- Every successful sampler run ends with `len(data) - 1`: each `.ok`
path goes through `finalizeFrameIndices`, whose final check appends
`len(data) - 1` unless it is already last. -/
theorem sampleFrameIndices_ok_getLast? (total : Nat) (cap : Option Int) (l : List Int)
    (h : sampleFrameIndices total cap = .ok l) :
    l.getLast? = some ((total : Int) - 1) := by
  simp only [sampleFrameIndices] at h
  split at h
  · injection h with h
    rw [← h]; exact finalizeFrameIndices_getLast? ..
  · split at h
    · split at h
      · simp at h
      · split at h
        · simp at h
        · split at h
          · simp at h
          · injection h with h
            rw [← h]; exact finalizeFrameIndices_getLast? ..
    · injection h with h
      rw [← h]; exact finalizeFrameIndices_getLast? ..

/-- For a non-empty input, every successful sampler run starts at index
`0`: all three list-building branches begin with `range(0, ...)`. -/
theorem sampleFrameIndices_ok_head? (total : Nat) (cap : Option Int) (l : List Int)
    (h1 : 1 ≤ total) (h : sampleFrameIndices total cap = .ok l) :
    l.head? = some 0 := by
  have hstop : (0 : Int) < (total : Int) := by exact_mod_cast h1
  simp only [sampleFrameIndices] at h
  split at h
  · injection h with h
    rw [← h, finalizeFrameIndices_head? _ _ (pyRange0_ne_nil _ _ one_pos hstop)]
    exact pyRange0_head? _ _ one_pos hstop
  · rename_i c
    split at h
    · split at h
      · simp at h
      · split at h
        · simp at h
        · split at h
          · simp at h
          · next hfi =>
            injection h with h
            have h0 : 0 < Int.fdiv (total : Int) c ∧ (0 : Int) < (total : Int) := by
              by_contra hc
              exact hfi (by unfold pyRange0; rw [if_neg hc])
            have headfi := pyRange0_head? _ _ h0.1 h0.2
            have hne2 : (if (pyRange0 (total : Int) (Int.fdiv (total : Int) c)).getLastD 0 ≠
                (total : Int) - 1 then
                  pyRange0 (total : Int) (Int.fdiv (total : Int) c) ++ [(total : Int) - 1]
                else pyRange0 (total : Int) (Int.fdiv (total : Int) c)) ≠ [] := by
              split
              · intro hx
                exact hfi (List.append_eq_nil.mp hx).1
              · exact hfi
            rw [← h, finalizeFrameIndices_head? _ _ hne2]
            split
            · rw [head?_append_left _ _ hfi]
              exact headfi
            · exact headfi
    · injection h with h
      rw [← h, finalizeFrameIndices_head? _ _ (pyRange0_ne_nil _ _ one_pos hstop)]
      exact pyRange0_head? _ _ one_pos hstop

/-! ## Claim theorems -/

/-- C1: Frame Sampler final-frame inclusion — for every `totalCount ≥ 1`,
the index list produced by the sampler is non-empty and ends with
`totalCount - 1`; the unconditional final check appends it when the
stride-generated elements do not already end there. -/
theorem frameSampler_final_frame_inclusion (total : Nat) (cap : Option Int) (l : List Int)
    (_h1 : 1 ≤ total) (h : sampleFrameIndices total cap = .ok l) :
    l ≠ [] ∧ l.getLast? = some ((total : Int) - 1) := by
  have hl := sampleFrameIndices_ok_getLast? total cap l h
  refine ⟨?_, hl⟩
  intro he
  rw [he] at hl
  simp at hl

theorem frameSampler_final_frame_inclusion_witness :
    ([0, 1, 2] : List Int) ≠ [] ∧ ([0, 1, 2] : List Int).getLast? = some (((3 : Nat) : Int) - 1) :=
  frameSampler_final_frame_inclusion 3 none [0, 1, 2] (by decide) (by decide)

/-- C2 counterexample: for `totalCount = 0` the sampler does not return
`[0]`: the final check compares against `len(data) - 1 = -1` and appends
it, so the result is `[0, -1]`. -/
theorem frameSampler_zeroCount_counterexample :
    sampleFrameIndices 0 none = .ok [0, -1] ∧ ([0, -1] : List Int) ≠ [0] := by
  decide

/-- C2 amended: for `totalCount = 0` the sampler returns the two-element
list `[0, -1]` (the defensive `[0]` plus the unconditionally appended
`len(data) - 1 = -1`) for `animation_frames` `None` or any non-negative
cap; a negative cap instead raises (`range` with a zero step). -/
theorem frameSampler_zeroCount_amended :
    sampleFrameIndices 0 none = .ok [0, -1] ∧
    (∀ c : Int, 0 ≤ c → sampleFrameIndices 0 (some c) = .ok [0, -1]) ∧
    (∀ c : Int, c < 0 → sampleFrameIndices 0 (some c) = .error .valueError) := by
  refine ⟨by decide, fun c hc => ?_, fun c hc => ?_⟩
  · simp only [sampleFrameIndices]
    split
    · next hgt => exfalso; revert hgt; push_cast; omega
    · decide
  · simp only [sampleFrameIndices]
    split
    · split
      · next hc0 => exfalso; omega
      · split
        · rfl
        · next hs => exact absurd (by simp : Int.fdiv ((0 : Nat) : Int) c = 0) hs
    · next hng => exfalso; revert hng; push_cast; omega

theorem frameSampler_zeroCount_amended_witness :
    sampleFrameIndices 0 (some 3) = .ok [0, -1] :=
  frameSampler_zeroCount_amended.2.1 3 (by decide)

/-- C4: sampling determinism — the sampler is a pure function of
`(totalCount, cap)`; in this shallow embedding it is a Lean function, so
two invocations on the same inputs are definitionally equal. -/
theorem frameSampler_deterministic (total : Nat) (cap : Option Int) :
    sampleFrameIndices total cap = sampleFrameIndices total cap := rfl

/-- C3 counterexample: `totalCount = 19`, `cap = 10` — the code never
truncates the stride indices to the first `cap` entries: the stride is
`19 // 10 = 1`, so all 19 indices are produced, and `19 > 10 + 1`. -/
theorem frameSampler_budget_counterexample :
    sampleFrameIndices 19 (some 10) =
      .ok [0, 1, 2, 3, 4, 5, 6, 7, 8, 9, 10, 11, 12, 13, 14, 15, 16, 17, 18] ∧
    ¬([0, 1, 2, 3, 4, 5, 6, 7, 8, 9, 10, 11, 12, 13, 14, 15, 16, 17, 18] :
      List Int).length ≤ 10 + 1 := by
  decide

/-- For `1 ≤ c < t`, the number of elements of `range(0, t, t // c)` is
at most `2 * c`. -/
theorem strideIndices_count_bound (t c : Nat) (hc : 1 ≤ c) (hct : c < t) :
    (t - 1) / (t / c) + 1 ≤ 2 * c := by
  have hc0 : 0 < c := hc
  have hs1 : 1 ≤ t / c := (Nat.le_div_iff_mul_le hc0).mpr (by omega)
  have hdm : c * (t / c) + t % c = t := Nat.div_add_mod t c
  have hmod : t % c < c := Nat.mod_lt _ hc0
  have hcs : c ≤ c * (t / c) := le_mul_of_one_le_right (Nat.zero_le c) hs1
  have hlt : t - 1 < 2 * c * (t / c) := by
    have h2 : t - 1 < 2 * (c * (t / c)) := by omega
    calc t - 1 < 2 * (c * (t / c)) := h2
      _ = 2 * c * (t / c) := by ring
  exact Nat.succ_le_of_lt ((Nat.div_lt_iff_lt_mul (by omega)).mpr hlt)

/-- C3 amended: when a cap `c ≥ 1` is set, the sampler's output length is
bounded by `2 * c + 1`, not `c + 1`: no truncation to the first `c`
entries happens, and `range(0, total, total // c)` can hold up to
`2 * c` indices before the final-frame append. -/
theorem frameSampler_budget_amended (total : Nat) (c : Int) (hc : 1 ≤ c) (l : List Int)
    (h : sampleFrameIndices total (some c) = .ok l) :
    (l.length : Int) ≤ 2 * c + 1 := by
  obtain ⟨c', rfl⟩ : ∃ c' : Nat, (c' : Int) = c :=
    ⟨c.toNat, Int.toNat_of_nonneg (by omega)⟩
  simp only [sampleFrameIndices] at h
  split at h
  · next hgt =>
    split at h
    · simp at h
    · next hc0 =>
      split at h
      · simp at h
      · next hs0 =>
        split at h
        · simp at h
        · next hfi =>
          injection h with h
          have hc1 : 1 ≤ c' := by exact_mod_cast hc
          have hct : c' < total := by exact_mod_cast hgt
          have hstep : Int.fdiv (total : Int) (c' : Int) = ((total / c' : Nat) : Int) :=
            (Int.ofNat_fdiv total c').symm
          rw [hstep] at h hfi
          have hspos : 0 < total / c' := (Nat.le_div_iff_mul_le hc1).mpr (by omega)
          have h0t : (0 : Int) < (total : Int) := by exact_mod_cast (by omega : 0 < total)
          have h0s : (0 : Int) < ((total / c' : Nat) : Int) := by exact_mod_cast hspos
          have hlen : (pyRange0 (total : Int) ((total / c' : Nat) : Int)).length =
              (total - 1) / (total / c') + 1 := by
            rw [pyRange0_length _ _ h0s h0t]
            have e1 : ((total : Int) - 1).toNat = total - 1 := by omega
            have e2 : (((total / c' : Nat) : Int)).toNat = total / c' := by omega
            rw [e1, e2]
          have hbound := strideIndices_count_bound total c' hc1 hct
          by_cases hlast : (pyRange0 (total : Int) ((total / c' : Nat) : Int)).getLastD 0 ≠
              (total : Int) - 1
          · rw [if_pos hlast] at h
            rw [finalizeFrameIndices_of_getLastD total _ (by simp)
              (List.getLastD_concat _ _ _)] at h
            rw [← h]
            rw [List.length_append, hlen]
            have hle : (total - 1) / (total / c') + 1 + List.length [(total : Int) - 1] ≤
                2 * c' + 1 := by
              simp only [List.length_cons, List.length_nil]
              omega
            exact_mod_cast hle
          · rw [if_neg hlast] at h
            push_neg at hlast
            rw [finalizeFrameIndices_of_getLastD total _ hfi hlast] at h
            rw [← h, hlen]
            have hle : (total - 1) / (total / c') + 1 ≤ 2 * c' + 1 := by omega
            exact_mod_cast hle
  · next hng =>
    injection h with h
    rcases Nat.eq_zero_or_pos total with h0 | h0
    · subst h0
      have hc1 : 1 ≤ c' := by exact_mod_cast hc
      have he : finalizeFrameIndices 0 (pyRange0 ((0 : Nat) : Int) 1) = [0, -1] := by decide
      rw [he] at h
      rw [← h]
      have hle : List.length [(0 : Int), -1] ≤ 2 * c' + 1 := by
        simp only [List.length_cons, List.length_nil]
        omega
      exact_mod_cast hle
    · rw [pyRange0_natCast_one total] at h
      have hlast := map_range_natCast_getLastD total h0
      have hne : (List.range total).map (fun (i : Nat) => (i : Int)) ≠ [] := by
        intro hx
        have hgl := map_range_natCast_getLast? total h0
        rw [hx] at hgl
        simp at hgl
      rw [finalizeFrameIndices_of_getLastD total _ hne hlast] at h
      rw [← h]
      rw [List.length_map, List.length_range]
      have htc : total ≤ c' := by exact_mod_cast not_lt.mp hng
      have hc1 : 1 ≤ c' := by exact_mod_cast hc
      exact_mod_cast (by omega : total ≤ 2 * c' + 1)

theorem frameSampler_budget_amended_witness :
    ((([0, 1, 2, 3, 4, 5, 6, 7, 8, 9, 10, 11, 12, 13, 14, 15, 16, 17, 18] :
      List Int).length : Int)) ≤ 2 * 10 + 1 :=
  frameSampler_budget_amended 19 10 (by decide)
    [0, 1, 2, 3, 4, 5, 6, 7, 8, 9, 10, 11, 12, 13, 14, 15, 16, 17, 18] (by decide)

/-- C5: standard-tier example scenario — the standard tier resolves to
threshold 100 (spec-modelled resolver); for `totalCount = 200` the stride
`200 // 100` evaluates to `2`, and the sampler yields the 100 indices
`0, 2, ..., 198` plus the appended last index `199`: 101 entries ending
in `199`. -/
theorem standardTier_example_scenario :
    resolveQualityProfile "standard" =
      .ok ⟨480, 360, 3/5, none, some 100, 250, .fullColor⟩ ∧
    Int.fdiv 200 100 = 2 ∧
    sampleFrameIndices 200 (some 100) =
      .ok ((List.range 100).map (fun (i : Nat) => 2 * (i : Int)) ++ [199]) ∧
    ((List.range 100).map (fun (i : Nat) => 2 * (i : Int)) ++ [199]).length = 101 ∧
    ((List.range 100).map (fun (i : Nat) => 2 * (i : Int)) ++ [199]).getLast? =
      some 199 := by
  refine ⟨?_, by decide, by decide, by decide, by decide⟩
  rfl

/-- C8: single-row input crashes the animation construction — for every
`animation_frames` value the UI can supply, a one-row dataframe yields
exactly the one frame index `[0]`, and `_create_animated_chart` (and
hence `create_single_axis_chart` with chart type `'animated'`) raises
`ZeroDivisionError` at the progress-percent slider label, which divides
by `len(frame_indices) - 1 = 0`; no figure is returned. -/
theorem singleRow_animation_crash (cap : Option Int)
    (hcap : cap ∈ animationFramesOptions) :
    sampleFrameIndices 1 cap = .ok [0] ∧
    createAnimatedChart 1 cap = .error .zeroDivisionError ∧
    createSingleAxisChart "animated" 1 cap = .error .zeroDivisionError := by
  fin_cases hcap <;> exact ⟨by decide, by decide, by decide⟩

theorem singleRow_animation_crash_witness :
    sampleFrameIndices 1 (some 100) = .ok [0] ∧
    createAnimatedChart 1 (some 100) = .error .zeroDivisionError ∧
    createSingleAxisChart "animated" 1 (some 100) = .error .zeroDivisionError :=
  singleRow_animation_crash (some 100) (by decide)

/-- From loop position `1` onward, the `frame_idx == 0` condition is
false, so every frame's prefix length is `i + 1`. -/
theorem enumFrom_framePrefixLen (total : Nat) (xs : List Int) (k : Nat) (hk : 1 ≤ k) :
    (xs.enumFrom k).map (fun p => framePrefixLen total p.1 p.2) =
      xs.map (fun i => (i + 1).toNat) := by
  induction xs generalizing k with
  | nil => rfl
  | cons a as ih =>
    rw [List.enumFrom_cons, List.map_cons, List.map_cons, ih (k + 1) (by omega)]
    congr 1
    unfold framePrefixLen
    rw [if_neg (by rintro ⟨h0, -, -⟩; omega)]

/-- C9: first-frame two-point special case — for every input with more
than one row, the first animation frame is built from the first two rows
(`data.iloc[:2]`), while every later frame with sampled index `i` is
built from the prefix `data.iloc[:i+1]`; so the first frame always holds
exactly two data points. -/
theorem firstFrame_two_points (total : Nat) (cap : Option Int) (fig : AnimFigure)
    (h1 : 1 < total) (h : createAnimatedChart total cap = .ok fig) :
    fig.framePrefixLens = 2 :: fig.frameIndices.tail.map (fun i => (i + 1).toNat) ∧
    fig.framePrefixLens.head? = some 2 := by
  cases hs : sampleFrameIndices total cap with
  | error e =>
    simp only [createAnimatedChart, hs] at h
    exact Except.noConfusion h
  | ok fi =>
    simp only [createAnimatedChart, hs] at h
    split at h
    · simp at h
    · injection h with h
      subst h
      have hhead := sampleFrameIndices_ok_head? total cap fi (by omega) hs
      obtain ⟨t, rfl⟩ : ∃ t, fi = 0 :: t := by
        cases fi with
        | nil => simp at hhead
        | cons a t =>
          simp only [List.head?_cons, Option.some.injEq] at hhead
          exact ⟨t, by rw [hhead]⟩
      have hfirst : framePrefixLen total 0 0 = 2 := by
        unfold framePrefixLen
        rw [if_pos ⟨rfl, rfl, h1⟩]
      constructor
      · simp only [List.enum_cons, List.map_cons, List.tail_cons]
        rw [enumFrom_framePrefixLen total t 1 (le_refl 1), hfirst]
      · simp only [List.enum_cons, List.map_cons]
        rw [hfirst]
        rfl

theorem firstFrame_two_points_witness :
    (AnimFigure.mk [0, 1, 2, 3, 4] [2, 2, 3, 4, 5] [0, 25, 50, 75, 100]).framePrefixLens =
      2 :: (AnimFigure.mk [0, 1, 2, 3, 4] [2, 2, 3, 4, 5]
        [0, 25, 50, 75, 100]).frameIndices.tail.map (fun i => (i + 1).toNat) ∧
    (AnimFigure.mk [0, 1, 2, 3, 4] [2, 2, 3, 4, 5]
      [0, 25, 50, 75, 100]).framePrefixLens.head? = some 2 :=
  firstFrame_two_points 5 none
    (AnimFigure.mk [0, 1, 2, 3, 4] [2, 2, 3, 4, 5] [0, 25, 50, 75, 100])
    (by decide) (by decide)

/-- C10: no missing y-values in any rendered frame — for every column
prefix, the y-series produced by numeric coercion, forward fill and
`fillna(0)` contains only concrete numbers. -/
theorem frameYValues_all_concrete (rawCol : List RawCell) (plen : Nat) (y : Option Int)
    (hy : y ∈ frameYValues rawCol plen) : ∃ v : Int, y = some v := by
  unfold frameYValues fillna0 at hy
  rw [List.mem_map] at hy
  obtain ⟨o, -, rfl⟩ := hy
  exact ⟨o.getD 0, rfl⟩

theorem frameYValues_all_concrete_witness :
    ∃ v : Int, (some 0 : Option Int) = some v :=
  frameYValues_all_concrete [.nonNumeric, .num 5, .nonNumeric] 2 (some 0) (by decide)

/-- A slot not named by any completion event keeps its prior value. -/
theorem foldl_slotWrite_not_mem {α : Type} (res : Nat → Option α) (ks : List Nat)
    (init : Nat → Option α) (k : Nat) (hk : k ∉ ks) :
    ((ks.map (fun j => (j, res j))).foldl slotWrite init) k = init k := by
  induction ks generalizing init with
  | nil => rfl
  | cons a as ih =>
    rw [List.map_cons, List.foldl_cons]
    rw [ih _ (fun hx => hk (List.mem_cons_of_mem _ hx))]
    simp only [slotWrite]
    rw [if_neg (fun hx => hk (by rw [hx]; exact List.mem_cons_self a as))]

/-- With pairwise-distinct slot indices, folding the completion events in
any arrival order leaves each mentioned slot holding its own result. -/
theorem foldl_slotWrite_mem {α : Type} (res : Nat → Option α) (ks : List Nat) :
    ∀ (init : Nat → Option α) (k : Nat), ks.Nodup → k ∈ ks →
    ((ks.map (fun j => (j, res j))).foldl slotWrite init) k = res k := by
  induction ks with
  | nil => intro init k _ hk; simp at hk
  | cons a as ih =>
    intro init k hnd hk
    rw [List.map_cons, List.foldl_cons]
    rcases List.mem_cons.mp hk with rfl | hmem
    · have ha : k ∉ as := (List.nodup_cons.mp hnd).1
      rw [foldl_slotWrite_not_mem res as _ k ha]
      simp [slotWrite]
    · exact ih _ k (List.nodup_cons.mp hnd).2 hmem

/-- C6: order preservation — for every permutation of worker completion
order, the Aggregator's final non-empty output sequence, read in slot
order, equals the per-slot results with failed slots removed; it is
invariant under reordering of completion events.  (The Aggregator is
modelled from the spec; its implementation is not among the sources.) -/
theorem aggregator_order_preservation {α : Type} (n : Nat) (res : Nat → Option α)
    (perm : List Nat) (hp : perm.Perm (List.range n)) :
    aggregatorOutput n (perm.map (fun k => (k, res k))) =
      (List.range n).filterMap res := by
  unfold aggregatorOutput
  apply List.filterMap_congr
  intro k hk
  unfold runAggregator
  exact foldl_slotWrite_mem res perm _ k (hp.symm.nodup (List.nodup_range n))
    (hp.mem_iff.mpr hk)

theorem aggregator_order_preservation_witness :
    aggregatorOutput 3 ([2, 0, 1].map
        (fun k => (k, if k = 1 then (none : Option Nat) else some k))) =
      (List.range 3).filterMap (fun k => if k = 1 then (none : Option Nat) else some k) :=
  aggregator_order_preservation 3 (fun k => if k = 1 then none else some k)
    [2, 0, 1] (by decide)

/-- C7: configuration error handling — every tier name outside the four
built-in tiers makes the Quality Profile Resolver fail with
`ConfigurationError`, and the pipeline front end returns that error
before any sampling happens, uniformly in the input size.  (The resolver
is modelled from the spec; its implementation is not among the
sources.) -/
theorem unknownTier_configurationError (tier : String)
    (h : tier ∉ (["fastest", "fast-preview", "standard", "high"] : List String)) :
    resolveQualityProfile tier = .error .configurationError ∧
    ∀ total : Nat, runPipelineSampling tier total = .error .configurationError := by
  have h1 : ¬tier = "fastest" := fun hx => h (by rw [hx]; decide)
  have h2 : ¬tier = "fast-preview" := fun hx => h (by rw [hx]; decide)
  have h3 : ¬tier = "standard" := fun hx => h (by rw [hx]; decide)
  have h4 : ¬tier = "high" := fun hx => h (by rw [hx]; decide)
  have hres : resolveQualityProfile tier = .error .configurationError := by
    unfold resolveQualityProfile
    rw [if_neg h1, if_neg h2, if_neg h3, if_neg h4]
  refine ⟨hres, fun total => ?_⟩
  unfold runPipelineSampling
  rw [hres]

theorem unknownTier_configurationError_witness :
    resolveQualityProfile "ultra" = .error .configurationError ∧
    ∀ total : Nat, runPipelineSampling "ultra" total = .error .configurationError :=
  unknownTier_configurationError "ultra" (by decide)
